import Mathlib

/-!
Shallow embedding of the cogni CLI's conversation-assembly and
wire-translation layer (src/cli.rs, src/parse.rs, src/openai.rs,
src/exec/chat.rs, src/error.rs), with theorems settling the frozen
claims about message ordering, payload encoding, response
normalization, error handling and rendering.
-/

namespace Cogni

/-- Roles of chat messages (src/openai.rs, enum Role). -/
inductive Role where
  | System
  | Assistant
  | User
deriving DecidableEq

/-- A chat message: role plus text content (src/openai.rs, struct Message). -/
structure Message where
  role : Role
  content : String
deriving DecidableEq

/-- Constructor `Message::system`. -/
def Message.system (content : String) : Message := ⟨Role.System, content⟩

/-- Constructor `Message::user`. -/
def Message.user (content : String) : Message := ⟨Role.User, content⟩

/-- Constructor `Message::assistant`. -/
def Message.assistant (content : String) : Message := ⟨Role.Assistant, content⟩

/-- The check `content.trim().is_empty()` from src/parse.rs: the text is empty after
removing leading and trailing whitespace exactly when every character is
whitespace, which is how the check is embedded here. -/
def trim_is_empty (content : String) : Bool :=
  content.data.all Char.isWhitespace

/-- Function `parse::parse_messages` (src/parse.rs): the stream's full text is read;
if it is empty after trimming, no messages result, otherwise a single user
message carrying the untrimmed text. The io read itself is modelled as the
text already being in hand. -/
def parse_messages (content : String) : List Message :=
  if trim_is_empty content then [] else [Message.user content]

/-- Ordering of (message, original flag index) pairs used by the stable
sort in `messages_from_matches` (Rust `sort_by(|a, b| a_idx.cmp(b_idx))`). -/
def idxLe (a b : Message × Nat) : Prop := a.2 ≤ b.2

instance : DecidableRel idxLe := fun a b => Nat.decLe a.2 b.2

instance : IsTotal (Message × Nat) idxLe := ⟨fun a b => Nat.le_total a.2 b.2⟩

instance : IsTrans (Message × Nat) idxLe := ⟨fun _ _ _ => Nat.le_trans⟩

/-- Strict version of `idxLe`, used to express uniqueness of the sorted
order when all indices are distinct. -/
def idxLt (a b : Message × Nat) : Prop := a.2 < b.2

instance : IsAntisymm (Message × Nat) idxLt :=
  ⟨fun _ _ h1 h2 => absurd h1 (Nat.lt_asymm h2)⟩

/-- Method `ChatCompletionArgs::messages_from_matches` (src/cli.rs): user and
assistant flag messages, each paired with the positional index clap
reported for the occurrence, are concatenated and stably sorted by index
(Rust `Vec::sort_by` is a stable sort; `List.insertionSort` by `idxLe` is
a stable sort by the same key), then a system message, when supplied, is
inserted at the front. -/
def messages_from_matches (user_entries asst_entries : List (String × Nat))
    (system_message : Option String) : List Message :=
  let entries : List (Message × Nat) :=
    user_entries.map (fun ci => (Message.user ci.1, ci.2)) ++
      asst_entries.map (fun ci => (Message.assistant ci.1, ci.2))
  let sorted := List.insertionSort idxLe entries
  let msgs := sorted.map Prod.fst
  match system_message with
  | some s => Message.system s :: msgs
  | none => msgs

/-- Follows the spec's words for claim C1: the stable merge of the two
flag-message lists by ascending original positional index, taking the
left (user) entry on ties. Compared against `messages_from_matches`. -/
def specStableMerge : List (Message × Nat) → List (Message × Nat) → List (Message × Nat)
  | [], ys => ys
  | x :: xs, [] => x :: xs
  | x :: xs, y :: ys =>
    if x.2 ≤ y.2 then x :: specStableMerge xs (y :: ys)
    else y :: specStableMerge (x :: xs) ys

theorem specStableMerge_perm :
    ∀ xs ys : List (Message × Nat), List.Perm (specStableMerge xs ys) (xs ++ ys) := by
  intro xs ys
  induction xs, ys using specStableMerge.induct with
  | case1 ys => simp [specStableMerge]
  | case2 x xs => simp [specStableMerge]
  | case3 x xs y ys h ih =>
    simp only [specStableMerge, if_pos h]
    exact ih.cons x
  | case4 x xs y ys h ih =>
    simp only [specStableMerge, if_neg h]
    exact (ih.cons y).trans List.perm_middle.symm

theorem specStableMerge_sorted :
    ∀ xs ys : List (Message × Nat), xs.Sorted idxLe → ys.Sorted idxLe →
      (specStableMerge xs ys).Sorted idxLe := by
  intro xs ys hxs hys
  induction xs, ys using specStableMerge.induct with
  | case1 ys => simpa [specStableMerge] using hys
  | case2 x xs => simpa [specStableMerge] using hxs
  | case3 x xs y ys h ih =>
    simp only [specStableMerge, if_pos h]
    rw [List.sorted_cons] at hxs ⊢
    refine ⟨?_, ih hxs.2 hys⟩
    intro b hb
    have hb' : b ∈ xs ++ y :: ys := (specStableMerge_perm xs (y :: ys)).subset hb
    rcases List.mem_append.mp hb' with hbx | hby
    · exact hxs.1 b hbx
    · rcases List.mem_cons.mp hby with rfl | hby'
      · exact h
      · rw [List.sorted_cons] at hys
        exact Nat.le_trans h (hys.1 b hby')
  | case4 x xs y ys h ih =>
    simp only [specStableMerge, if_neg h]
    rw [List.sorted_cons] at hys ⊢
    have hyx : y.2 ≤ x.2 := Nat.le_of_not_le h
    refine ⟨?_, ih hxs hys.2⟩
    intro b hb
    have hb' : b ∈ (x :: xs) ++ ys := (specStableMerge_perm (x :: xs) ys).subset hb
    rcases List.mem_append.mp hb' with hbx | hby
    · rcases List.mem_cons.mp hbx with rfl | hbx'
      · exact hyx
      · rw [List.sorted_cons] at hxs
        exact Nat.le_trans hyx (hxs.1 b hbx')
    · exact hys.1 b hby

/-- A list sorted by the weak index order whose indices are pairwise
distinct is sorted by the strict index order. -/
theorem sorted_idxLt_of_sorted_idxLe {l : List (Message × Nat)}
    (hs : l.Sorted idxLe) (hn : (l.map Prod.snd).Nodup) : l.Sorted idxLt := by
  have hp : l.Pairwise (fun a b : Message × Nat => a.2 ≠ b.2) := by
    rw [List.Nodup, List.pairwise_map] at hn
    exact hn
  exact (hs.and hp).imp (fun h => Nat.lt_of_le_of_ne h.1 h.2)

theorem sorted_idxLt_iff_map_snd {l : List (Message × Nat)} :
    l.Sorted idxLt ↔ (l.map Prod.snd).Sorted (· < ·) :=
  (List.pairwise_map (R := (· < ·)) (f := Prod.snd) (l := l)).symm

/-- Helper: entry lists built from the flag lists keep the flag indices. -/
theorem map_snd_user_entries (u : List (String × Nat)) :
    ((u.map fun ci => (Message.user ci.1, ci.2)).map Prod.snd) = u.map Prod.snd := by
  simp

theorem map_snd_asst_entries (a : List (String × Nat)) :
    ((a.map fun ci => (Message.assistant ci.1, ci.2)).map Prod.snd) = a.map Prod.snd := by
  simp

/-- C1: with flag indices ascending within each role list (as clap reports
them) and no index shared between the two lists, the flag-derived message
sequence assembled by `messages_from_matches` (no system message, before
side-channel messages) equals the stable merge of the user and assistant
messages by ascending original command-line positional index. -/
theorem c1_flag_messages_stable_merge (u a : List (String × Nat))
    (hU : (u.map Prod.snd).Sorted (· < ·))
    (hA : (a.map Prod.snd).Sorted (· < ·))
    (hD : ∀ i ∈ u.map Prod.snd, i ∉ a.map Prod.snd) :
    messages_from_matches u a none =
      (specStableMerge (u.map fun ci => (Message.user ci.1, ci.2))
        (a.map fun ci => (Message.assistant ci.1, ci.2))).map Prod.fst := by
  have hulLt : (u.map fun ci => (Message.user ci.1, ci.2)).Sorted idxLt := by
    rw [sorted_idxLt_iff_map_snd, map_snd_user_entries]
    exact hU
  have halLt : (a.map fun ci => (Message.assistant ci.1, ci.2)).Sorted idxLt := by
    rw [sorted_idxLt_iff_map_snd, map_snd_asst_entries]
    exact hA
  have hulLe : (u.map fun ci => (Message.user ci.1, ci.2)).Sorted idxLe :=
    hulLt.imp fun h => Nat.le_of_lt h
  have halLe : (a.map fun ci => (Message.assistant ci.1, ci.2)).Sorted idxLe :=
    halLt.imp fun h => Nat.le_of_lt h
  have hnodup :
      (((u.map fun ci => (Message.user ci.1, ci.2)) ++
        (a.map fun ci => (Message.assistant ci.1, ci.2))).map Prod.snd).Nodup := by
    rw [List.map_append, map_snd_user_entries, map_snd_asst_entries]
    exact List.nodup_append.mpr ⟨hU.nodup, hA.nodup, List.disjoint_left.mpr hD⟩
  have hperm_sort :
      List.Perm
        (List.insertionSort idxLe
          ((u.map fun ci => (Message.user ci.1, ci.2)) ++
            (a.map fun ci => (Message.assistant ci.1, ci.2))))
        ((u.map fun ci => (Message.user ci.1, ci.2)) ++
          (a.map fun ci => (Message.assistant ci.1, ci.2))) :=
    List.perm_insertionSort idxLe _
  have hsort_le := List.sorted_insertionSort idxLe
    ((u.map fun ci => (Message.user ci.1, ci.2)) ++
      (a.map fun ci => (Message.assistant ci.1, ci.2)))
  have hsort_lt := sorted_idxLt_of_sorted_idxLe hsort_le
    (((hperm_sort.map Prod.snd).nodup_iff).mpr hnodup)
  have hmerge_perm := specStableMerge_perm
    (u.map fun ci => (Message.user ci.1, ci.2))
    (a.map fun ci => (Message.assistant ci.1, ci.2))
  have hmerge_le := specStableMerge_sorted
    (u.map fun ci => (Message.user ci.1, ci.2))
    (a.map fun ci => (Message.assistant ci.1, ci.2)) hulLe halLe
  have hmerge_lt := sorted_idxLt_of_sorted_idxLe hmerge_le
    (((hmerge_perm.map Prod.snd).nodup_iff).mpr hnodup)
  have heq := List.eq_of_perm_of_sorted (r := idxLt)
    (hperm_sort.trans hmerge_perm.symm) hsort_lt hmerge_lt
  simp only [messages_from_matches]
  rw [heq]

/-- Witness for C1 at the spec's own example `-u A -a B -u C`. -/
theorem c1_flag_messages_stable_merge_witness :
    messages_from_matches [("A", 1), ("C", 5)] [("B", 3)] none =
      [Message.user "A", Message.assistant "B", Message.user "C"] := by
  have h := c1_flag_messages_stable_merge [("A", 1), ("C", 5)] [("B", 3)]
    (by decide) (by decide) (by decide)
  rw [h]
  simp [specStableMerge]

/-- A system message pushes the interleaved flag messages one place right
(`messages.insert(0, ...)` in src/cli.rs). -/
theorem messages_from_matches_some (u a : List (String × Nat)) (s : String) :
    messages_from_matches u a (some s) =
      Message.system s :: messages_from_matches u a none := by
  simp [messages_from_matches]

/-- Flag-derived user/assistant messages never carry the system role. -/
theorem role_ne_system_of_mem_flags (u a : List (String × Nat)) {m : Message}
    (hm : m ∈ messages_from_matches u a none) : m.role ≠ Role.System := by
  simp only [messages_from_matches] at hm
  rcases List.mem_map.mp hm with ⟨p, hp, rfl⟩
  have hp' : p ∈ (u.map fun ci => (Message.user ci.1, ci.2)) ++
      (a.map fun ci => (Message.assistant ci.1, ci.2)) :=
    (List.perm_insertionSort idxLe _).subset hp
  rcases List.mem_append.mp hp' with h | h <;>
    rcases List.mem_map.mp h with ⟨ci, _, rfl⟩ <;>
      simp [Message.user, Message.assistant]

/-- C2: when a system message is supplied, the assembled conversation
(flag messages followed by side-channel messages, as concatenated in
`exec` of src/exec/chat.rs) has the system message at position 0 and
contains exactly one system-role message, whatever the other flags and
whatever the side-channel text. -/
theorem c2_system_message_first_and_unique (u a : List (String × Nat))
    (s side : String) :
    (messages_from_matches u a (some s) ++ parse_messages side).head? =
        some (Message.system s) ∧
    (messages_from_matches u a (some s) ++ parse_messages side).countP
        (fun m => decide (m.role = Role.System)) = 1 := by
  rw [messages_from_matches_some]
  refine ⟨rfl, ?_⟩
  have h0 : (messages_from_matches u a none ++ parse_messages side).countP
      (fun m => decide (m.role = Role.System)) = 0 := by
    rw [List.countP_eq_zero]
    intro m hm
    rcases List.mem_append.mp hm with h | h
    · simpa using role_ne_system_of_mem_flags u a h
    · by_cases hside : trim_is_empty side <;>
        simp [parse_messages, hside, Message.user] at h ⊢
      rw [h]
      simp
  simp [List.cons_append, List.countP_cons, h0, Message.system]

/-- Reasoning effort levels (src/openai.rs, enum ReasoningEffort). -/
inductive ReasoningEffort where
  | Low
  | Medium
  | High
deriving DecidableEq

/-- Reasoning request option (src/openai.rs, struct Reasoning). -/
structure Reasoning where
  effort : ReasoningEffort
deriving DecidableEq

/-- Constructor `Reasoning::from_effort`. -/
def Reasoning.from_effort (effort : ReasoningEffort) : Reasoning := ⟨effort⟩

/-- Finish reasons for a choice (src/openai.rs, enum FinishReason). -/
inductive FinishReason where
  | Stop
  | Length
  | FunctionCall
  | ContentFilter
deriving DecidableEq

/-- One completion choice (src/openai.rs, struct Choice). -/
structure Choice where
  message : Message
  finish_reason : FinishReason
deriving DecidableEq

/-- Token usage (src/openai.rs, struct Usage). -/
structure Usage where
  input_tokens : Nat
  output_tokens : Nat
  total_tokens : Nat
deriving DecidableEq

/-- Canonical response model (src/openai.rs, struct Response); `created`
is the `ts_seconds` timestamp. -/
structure Response where
  created : Int
  choices : List Choice
  model : String
  usage : Usage
deriving DecidableEq

/-- Structured provider error envelope (src/openai.rs, struct APIError). -/
structure APIError where
  message : String
  error_type : String
  param : Option String
  code : Option String
deriving DecidableEq

/-- Error taxonomy (src/error.rs, enum Error). Errors that wrap foreign
payloads (reqwest, io, serde) carry their text; `ioError` models the
`Error::IO` variant. -/
inductive Error where
  | NoAPIKey
  | FailedToFetch (msg : String)
  | NoMessagesProvided
  | UnexpectedResponse (msg : String)
  | ioError (msg : String)
  | JSON (msg : String)
  | OpenAIError (error : APIError)
deriving DecidableEq

/-- Request model (src/openai.rs, struct ResponseRequest). `temperature`
(an f32 in the source) is carried opaquely as an integer since no claim
inspects its numeric semantics; `timeout` is the duration in seconds. -/
structure ResponseRequest where
  model : String
  messages : List Message
  temperature : Int
  timeout : Nat
  reasoning : Option Reasoning
deriving DecidableEq

/-- The message-merge and emptiness check of `exec` (src/exec/chat.rs):
flag-derived messages and side-channel messages are concatenated; an empty
result fails with `NoMessagesProvided` before any request is built, and a
non-empty result becomes the `ResponseRequest` handed to the transport
(so a request — and hence a network round trip — exists only on success). -/
def exec_request (flag_messages side_messages : List Message)
    (model : String) (temperature : Int) (timeout : Nat)
    (reasoning_effort : Option ReasoningEffort) : Except Error ResponseRequest :=
  let msgs := flag_messages ++ side_messages
  if msgs.isEmpty then Except.error Error.NoMessagesProvided
  else Except.ok
    { model := model, messages := msgs, temperature := temperature,
      timeout := timeout, reasoning := reasoning_effort.map Reasoning.from_effort }

/-- C3: the `no messages provided` failure happens exactly when the merged
conversation (flag messages plus side-channel messages) is empty, and an
invocation whose only content is the side channel succeeds, producing the
request that is then sent. -/
theorem c3_no_messages_iff_empty_merge (flag side : List Message)
    (model : String) (temperature : Int) (timeout : Nat)
    (eff : Option ReasoningEffort) :
    (exec_request flag side model temperature timeout eff =
        Except.error Error.NoMessagesProvided ↔ flag ++ side = []) ∧
    (flag = [] → side ≠ [] →
      exec_request flag side model temperature timeout eff =
        Except.ok ⟨model, side, temperature, timeout,
          eff.map Reasoning.from_effort⟩) := by
  constructor
  · by_cases h : (flag ++ side).isEmpty <;>
      simp [exec_request, h] <;> simpa [List.isEmpty_iff] using h
  · rintro rfl hside
    simp [exec_request, List.isEmpty_iff, hside]

/-- Witness for C3: a side-channel-only invocation succeeds, the empty
invocation fails with the no-messages error. -/
theorem c3_no_messages_witness :
    exec_request [] [Message.user "hi"] "gpt-5" 0 30 none =
      Except.ok ⟨"gpt-5", [Message.user "hi"], 0, 30, none⟩ ∧
    exec_request [] [] "gpt-5" 0 30 none =
      Except.error Error.NoMessagesProvided :=
  ⟨(c3_no_messages_iff_empty_merge [] [Message.user "hi"] "gpt-5" 0 30 none).2
      rfl (by decide),
    (c3_no_messages_iff_empty_merge [] [] "gpt-5" 0 30 none).1.mpr rfl⟩

/-- C4: a side-channel stream whose text is non-empty after trimming
parses to exactly one user message carrying the full untrimmed text; an
empty or whitespace-only stream parses to zero messages. -/
theorem c4_parse_messages_side_channel (content : String) :
    (¬ trim_is_empty content → parse_messages content = [Message.user content]) ∧
    (trim_is_empty content → parse_messages content = []) := by
  constructor <;> intro h <;> simp [parse_messages, h]

/-- Witness for C4 at a non-empty and a whitespace-only stream. -/
theorem c4_parse_messages_witness :
    parse_messages "Hello world" = [Message.user "Hello world"] ∧
    parse_messages " \n " = [] :=
  ⟨(c4_parse_messages_side_channel "Hello world").1 (by decide),
    (c4_parse_messages_side_channel " \n ").2 (by decide)⟩

/-- JSON values, modelling serde_json::Value as far as the payloads under
study need: objects are association lists in insertion order, and numeric
values carry the integers the claims can observe. -/
inductive Json where
  | str (s : String)
  | num (n : Int)
  | arr (elems : List Json)
  | obj (fields : List (String × Json))

/-- Method `Role::as_str` (src/openai.rs). -/
def Role.as_str : Role → String
  | Role.System => "system"
  | Role.Assistant => "assistant"
  | Role.User => "user"

/-- Method `Message::to_responses_input` (src/openai.rs): one input entry of the
wire payload. -/
def Message.to_responses_input (m : Message) : Json :=
  Json.obj [("role", Json.str m.role.as_str),
    ("content", Json.arr [Json.obj [("type", Json.str "text"),
      ("text", Json.str m.content)]])]

/-- Wire token of a reasoning effort (serde `rename_all = "lowercase"`). -/
def ReasoningEffort.wire : ReasoningEffort → String
  | ReasoningEffort.Low => "low"
  | ReasoningEffort.Medium => "medium"
  | ReasoningEffort.High => "high"

/-- serde serialization of `Reasoning` (src/openai.rs): a nested object
with the single `effort` field. -/
def Reasoning.to_json (r : Reasoning) : Json :=
  Json.obj [("effort", Json.str r.effort.wire)]

/-- Method `ResponseRequest::to_payload` (src/openai.rs): the required `model`,
`input` and `temperature` keys, plus a `reasoning` key inserted only when
a reasoning effort is set. The serde_json object is modelled as the list
of its key/value pairs; key membership is observed through `List.lookup`. -/
def ResponseRequest.to_payload (req : ResponseRequest) : List (String × Json) :=
  [("model", Json.str req.model),
    ("input", Json.arr (req.messages.map Message.to_responses_input)),
    ("temperature", Json.num req.temperature)] ++
  (match req.reasoning with
   | some r => [("reasoning", r.to_json)]
   | none => [])

/-- C5: the encoded payload has a `reasoning` key exactly when a reasoning
effort is set — when unset the key is absent altogether — and a High
effort encodes as the nested object with `effort` set to `"high"`. -/
theorem c5_reasoning_key_iff_set (req : ResponseRequest) :
    ((req.to_payload.lookup "reasoning" = none) ↔ req.reasoning = none) ∧
    (∀ r, req.reasoning = some r →
      req.to_payload.lookup "reasoning" = some r.to_json) ∧
    (req.reasoning = some (Reasoning.from_effort ReasoningEffort.High) →
      req.to_payload.lookup "reasoning" =
        some (Json.obj [("effort", Json.str "high")])) := by
  refine ⟨?_, ?_, ?_⟩
  · cases h : req.reasoning <;>
      simp [ResponseRequest.to_payload, List.lookup, h]
  · intro r hr
    simp [ResponseRequest.to_payload, List.lookup, hr]
  · intro hr
    simp [ResponseRequest.to_payload, List.lookup, hr, Reasoning.to_json,
      Reasoning.from_effort, ReasoningEffort.wire]

/-- Witness for C5 at a request without reasoning and one with High
effort. -/
theorem c5_reasoning_key_witness :
    (ResponseRequest.to_payload
        ⟨"gpt-5", [Message.user "Hello"], 0, 30, none⟩).lookup "reasoning" =
      none ∧
    (ResponseRequest.to_payload
        ⟨"gpt-5", [Message.user "Hello"], 0, 30,
          some (Reasoning.from_effort ReasoningEffort.High)⟩).lookup
        "reasoning" =
      some (Json.obj [("effort", Json.str "high")]) :=
  ⟨(c5_reasoning_key_iff_set
      ⟨"gpt-5", [Message.user "Hello"], 0, 30, none⟩).1.mpr rfl,
    (c5_reasoning_key_iff_set
      ⟨"gpt-5", [Message.user "Hello"], 0, 30,
        some (Reasoning.from_effort ReasoningEffort.High)⟩).2.2 rfl⟩

/-- Content segments of an output item (src/openai.rs, enum
ResponseContent): the two recognized textual tags `output_text` and
`text`, and the serde `other` catch-all for every unrecognized tag. -/
inductive ResponseContent where
  | outputText (text : String)
  | text (text : String)
  | other
deriving DecidableEq

/-- Method `ResponseContent::as_text` (src/openai.rs). -/
def ResponseContent.as_text : ResponseContent → Option String
  | ResponseContent.outputText t => some t
  | ResponseContent.text t => some t
  | ResponseContent.other => none

/-- One output item of the provider's success payload (src/openai.rs,
struct ResponseOutput). -/
structure ResponseOutput where
  item_type : String
  role : Option Role
  content : List ResponseContent
deriving DecidableEq

/-- Method `ResponseOutput::aggregated_text` (src/openai.rs): push the text of
every recognized segment onto an accumulator, in order; an empty result
becomes `none`. -/
def ResponseOutput.aggregated_text (o : ResponseOutput) : Option String :=
  let aggregated := o.content.foldl
    (fun acc part =>
      match part.as_text with
      | some t => acc ++ t
      | none => acc) ""
  if aggregated.isEmpty then none else some aggregated

/-- Usage block of the raw success payload (src/openai.rs, struct
ResponsesUsage). -/
structure ResponsesUsage where
  input_tokens : Nat
  output_tokens : Nat
  total_tokens : Nat
deriving DecidableEq

/-- Raw success payload (src/openai.rs, struct ResponsesAPIResponse). -/
structure ResponsesAPIResponse where
  created : Int
  model : String
  output : List ResponseOutput
  usage : ResponsesUsage
deriving DecidableEq

/-- The concatenation, in segment order with no separator, of the text of
every recognized segment — the reference value the claims compare
`aggregated_text` against. -/
def textConcat : List ResponseContent → String
  | [] => ""
  | p :: ps =>
    (match p.as_text with
     | some t => t
     | none => "") ++ textConcat ps

theorem foldl_push_text (parts : List ResponseContent) :
    ∀ acc : String,
      parts.foldl
        (fun acc part =>
          match part.as_text with
          | some t => acc ++ t
          | none => acc) acc = acc ++ textConcat parts := by
  induction parts with
  | nil => intro acc; simp [textConcat]
  | cons p ps ih =>
    intro acc
    cases hp : p.as_text <;>
      simp [textConcat, hp, List.foldl_cons, ih, String.append_assoc]

theorem aggregated_text_eq (o : ResponseOutput) :
    o.aggregated_text =
      if textConcat o.content = "" then none else some (textConcat o.content) := by
  rw [ResponseOutput.aggregated_text]
  have h := foldl_push_text o.content ""
  rw [show ("" : String) ++ textConcat o.content = textConcat o.content from
    String.empty_append _] at h
  simp only [h]
  by_cases he : textConcat o.content = "" <;>
    simp [he, String.isEmpty_iff]

/-- The loop body of `TryFrom<ResponsesAPIResponse> for Response`
(src/openai.rs): items whose type is not `message` are skipped; a
`message` item missing aggregated text aborts with the malformed-item
error; otherwise a Choice is produced with the role defaulted to
Assistant and finish reason fixed to Stop. -/
def collectChoices : List ResponseOutput → Except String (List Choice)
  | [] => Except.ok []
  | o :: rest =>
    if o.item_type = "message" then
      match o.aggregated_text with
      | none => Except.error "response message missing text content"
      | some text =>
        match collectChoices rest with
        | Except.error e => Except.error e
        | Except.ok cs =>
          Except.ok (⟨⟨o.role.getD Role.Assistant, text⟩, FinishReason.Stop⟩ :: cs)
    else collectChoices rest

/-- Conversion `TryFrom<ResponsesAPIResponse> for Response` (src/openai.rs): collect
choices from the output items, reject the whole payload when zero choices
were produced, otherwise assemble the canonical Response. -/
def tryFromResponses (value : ResponsesAPIResponse) : Except String Response :=
  match collectChoices value.output with
  | Except.error e => Except.error e
  | Except.ok choices =>
    if choices.isEmpty then
      Except.error "response did not contain any assistant messages"
    else
      Except.ok ⟨value.created, choices, value.model,
        ⟨value.usage.input_tokens, value.usage.output_tokens,
          value.usage.total_tokens⟩⟩

theorem collectChoices_ok (l : List ResponseOutput)
    (h : ∀ o ∈ l, o.item_type = "message" → textConcat o.content ≠ "") :
    collectChoices l =
      Except.ok ((l.filter (fun o => decide (o.item_type = "message"))).map
        (fun o => ⟨⟨o.role.getD Role.Assistant, textConcat o.content⟩,
          FinishReason.Stop⟩)) := by
  induction l with
  | nil => simp [collectChoices]
  | cons o rest ih =>
    have hrest := ih fun p hp => h p (List.mem_cons_of_mem o hp)
    by_cases ht : o.item_type = "message"
    · have hne := h o (List.mem_cons_self o rest) ht
      rw [collectChoices, if_pos ht, aggregated_text_eq, if_neg hne, hrest]
      simp [ht]
    · rw [collectChoices, if_neg ht, hrest]
      simp [ht]

theorem collectChoices_error (l : List ResponseOutput) (o : ResponseOutput)
    (ho : o ∈ l) (h1 : o.item_type = "message")
    (h2 : o.aggregated_text = none) :
    collectChoices l = Except.error "response message missing text content" := by
  induction l with
  | nil => cases ho
  | cons x rest ih =>
    by_cases ht : x.item_type = "message"
    · rw [collectChoices, if_pos ht]
      cases hx : x.aggregated_text with
      | none => rfl
      | some t =>
        have hor : o ∈ rest := by
          rcases List.mem_cons.mp ho with rfl | hr
          · rw [hx] at h2; cases h2
          · exact hr
        rw [ih hor]
    · rw [collectChoices, if_neg ht]
      have hor : o ∈ rest := by
        rcases List.mem_cons.mp ho with rfl | hr
        · exact absurd h1 ht
        · exact hr
      exact ih hor

/-- C6: the normalizer skips every output item whose type is not
`message`, and each `message` item yields a Choice whose content is the
separator-free, order-preserving concatenation of the text of its
recognized segments, unrecognized segments contributing nothing; the role
defaults to Assistant and the finish reason is Stop. Hypotheses: every
message item carries some text (no malformed item) and at least one
message item exists (so normalization succeeds). -/
theorem c6_skip_and_concatenate (value : ResponsesAPIResponse)
    (hall : ∀ o ∈ value.output, o.item_type = "message" →
      textConcat o.content ≠ "")
    (hsome : value.output.filter (fun o => decide (o.item_type = "message")) ≠ []) :
    tryFromResponses value =
      Except.ok ⟨value.created,
        (value.output.filter (fun o => decide (o.item_type = "message"))).map
          (fun o => ⟨⟨o.role.getD Role.Assistant, textConcat o.content⟩,
            FinishReason.Stop⟩),
        value.model,
        ⟨value.usage.input_tokens, value.usage.output_tokens,
          value.usage.total_tokens⟩⟩ := by
  simp only [tryFromResponses, collectChoices_ok value.output hall]
  have hm : ((value.output.filter (fun o => decide (o.item_type = "message"))).map
      (fun o => (⟨⟨o.role.getD Role.Assistant, textConcat o.content⟩,
        FinishReason.Stop⟩ : Choice))).isEmpty = false := by
    simp [List.isEmpty_iff, hsome]
  simp [hm]

/-- Witness for C6: a payload with a reasoning item (skipped) and one
message item mixing both textual tags and an unrecognized segment. -/
theorem c6_skip_and_concatenate_witness :
    tryFromResponses ⟨1688413145, "gpt-5",
      [⟨"reasoning", none, [ResponseContent.text "Thinking..."]⟩,
        ⟨"message", some Role.Assistant,
          [ResponseContent.text "Hello", ResponseContent.other,
            ResponseContent.outputText " world"]⟩], ⟨3, 4, 7⟩⟩ =
      Except.ok ⟨1688413145,
        [⟨⟨Role.Assistant, "Hello world"⟩, FinishReason.Stop⟩],
        "gpt-5", ⟨3, 4, 7⟩⟩ := by
  have h := c6_skip_and_concatenate ⟨1688413145, "gpt-5",
    [⟨"reasoning", none, [ResponseContent.text "Thinking..."]⟩,
      ⟨"message", some Role.Assistant,
        [ResponseContent.text "Hello", ResponseContent.other,
          ResponseContent.outputText " world"]⟩], ⟨3, 4, 7⟩⟩
    (by decide) (by decide)
  rw [h]
  rfl

/-- C7: a message item with zero concatenated characters fails with the
malformed-item error naming the missing text, a payload with no message
items at all fails with the distinct no-assistant-output error, and the
two error strings differ. -/
theorem c7_distinct_normalization_errors (value : ResponsesAPIResponse) :
    ((∃ o ∈ value.output, o.item_type = "message" ∧ o.aggregated_text = none) →
      tryFromResponses value =
        Except.error "response message missing text content") ∧
    ((∀ o ∈ value.output, o.item_type ≠ "message") →
      tryFromResponses value =
        Except.error "response did not contain any assistant messages") ∧
    ("response message missing text content" ≠
      "response did not contain any assistant messages") := by
  refine ⟨?_, ?_, by decide⟩
  · rintro ⟨o, ho, h1, h2⟩
    simp only [tryFromResponses, collectChoices_error value.output o ho h1 h2]
  · intro hnone
    have hfil : value.output.filter (fun o => decide (o.item_type = "message")) = [] :=
      List.filter_eq_nil_iff.mpr (by intro o ho; simpa using hnone o ho)
    have hok := collectChoices_ok value.output
      (fun o ho h1 => absurd h1 (hnone o ho))
    simp only [tryFromResponses, hok, hfil]
    simp

/-- Witness for C7: a textless message item versus a payload with only a
reasoning item. -/
theorem c7_distinct_normalization_errors_witness :
    tryFromResponses ⟨1, "gpt-5",
      [⟨"message", some Role.Assistant, [ResponseContent.other]⟩], ⟨0, 0, 0⟩⟩ =
      Except.error "response message missing text content" ∧
    tryFromResponses ⟨1, "gpt-5",
      [⟨"reasoning", none, [ResponseContent.text "Thinking..."]⟩], ⟨1, 1, 2⟩⟩ =
      Except.error "response did not contain any assistant messages" :=
  ⟨(c7_distinct_normalization_errors ⟨1, "gpt-5",
      [⟨"message", some Role.Assistant, [ResponseContent.other]⟩], ⟨0, 0, 0⟩⟩).1
      ⟨⟨"message", some Role.Assistant, [ResponseContent.other]⟩,
        by decide, rfl, rfl⟩,
    (c7_distinct_normalization_errors ⟨1, "gpt-5",
      [⟨"reasoning", none, [ResponseContent.text "Thinking..."]⟩], ⟨1, 1, 2⟩⟩).2.1
      (by decide)⟩

/-- C10: normalization is all-or-nothing — one textless message item
anywhere in the output rejects the entire payload with the malformed-item
error, regardless of any other, well-formed message items. -/
theorem c10_all_or_nothing_rejection (value : ResponsesAPIResponse)
    (o : ResponseOutput) (ho : o ∈ value.output)
    (h1 : o.item_type = "message") (h2 : o.aggregated_text = none) :
    tryFromResponses value =
      Except.error "response message missing text content" := by
  simp only [tryFromResponses, collectChoices_error value.output o ho h1 h2]

/-- Witness for C10: a payload holding one well-formed message item and
one textless message item is rejected wholesale. -/
theorem c10_all_or_nothing_rejection_witness :
    tryFromResponses ⟨1, "gpt-5",
      [⟨"message", some Role.Assistant, [ResponseContent.text "Good"]⟩,
        ⟨"message", some Role.Assistant, [ResponseContent.other]⟩], ⟨1, 1, 2⟩⟩ =
      Except.error "response message missing text content" :=
  c10_all_or_nothing_rejection ⟨1, "gpt-5",
    [⟨"message", some Role.Assistant, [ResponseContent.text "Good"]⟩,
      ⟨"message", some Role.Assistant, [ResponseContent.other]⟩], ⟨1, 1, 2⟩⟩
    ⟨"message", some Role.Assistant, [ResponseContent.other]⟩
    (by decide) rfl rfl

/-- The status branch of `Client::create_response` (src/openai.rs): the
reply's body decoding is taken as given (reqwest's `json::<T>()` either
yields the typed value or a fetch error), and the branch matches the
status against exactly `StatusCode::OK`: on OK the success schema is
decoded and normalized (normalization failures becoming
`UnexpectedResponse`), on every other status the provider-error envelope
is decoded and surfaced as `OpenAIError`. -/
def create_response_handle (status : Nat)
    (success_body : Option ResponsesAPIResponse)
    (error_body : Option APIError) : Except Error Response :=
  if status = 200 then
    match success_body with
    | none => Except.error (Error.FailedToFetch "error decoding response body")
    | some raw =>
      match tryFromResponses raw with
      | Except.error e => Except.error (Error.UnexpectedResponse e)
      | Except.ok resp => Except.ok resp
  else
    match error_body with
    | none => Except.error (Error.FailedToFetch "error decoding response body")
    | some err => Except.error (Error.OpenAIError err)

/-- Counterexample to C8 as stated: status 201 is a success status, and
its body decodes under the success schema, yet the client takes the
error branch and surfaces the provider-error envelope instead of the
normalized Response. -/
theorem c8_success_status_counterexample :
    create_response_handle 201
      (some ⟨1688413145, "gpt-5",
        [⟨"message", some Role.Assistant, [ResponseContent.outputText "Hi"]⟩],
        ⟨1, 1, 2⟩⟩)
      (some ⟨"An error message", "invalid_request_error", none, none⟩) =
      Except.error (Error.OpenAIError
        ⟨"An error message", "invalid_request_error", none, none⟩) ∧
    (tryFromResponses ⟨1688413145, "gpt-5",
        [⟨"message", some Role.Assistant, [ResponseContent.outputText "Hi"]⟩],
        ⟨1, 1, 2⟩⟩).isOk = true := by
  exact ⟨rfl, rfl⟩

/-- C8 amended: the client branches on status being exactly 200 (OK), not
on the whole success class: status 200 decodes the success schema and
normalizes it (normalization failure surfacing as `UnexpectedResponse`,
never as a provider error), and any other status decodes the structured
provider-error envelope and surfaces it as the distinct `OpenAIError`
kind. -/
theorem c8_branch_on_status_ok (status : Nat)
    (success_body : Option ResponsesAPIResponse) (err : APIError)
    (raw : ResponsesAPIResponse) :
    (status ≠ 200 →
      create_response_handle status success_body (some err) =
        Except.error (Error.OpenAIError err)) ∧
    (status = 200 → success_body = some raw →
      create_response_handle status success_body (some err) =
        match tryFromResponses raw with
        | Except.error e => Except.error (Error.UnexpectedResponse e)
        | Except.ok resp => Except.ok resp) := by
  constructor
  · intro h
    simp [create_response_handle, h]
  · rintro rfl rfl
    simp [create_response_handle]

/-- Witness for the amended C8 at status 404 and status 200. -/
theorem c8_branch_on_status_ok_witness :
    create_response_handle 404 none
      (some ⟨"An error message", "invalid_request_error", none, none⟩) =
      Except.error (Error.OpenAIError
        ⟨"An error message", "invalid_request_error", none, none⟩) ∧
    create_response_handle 200
      (some ⟨1688413145, "gpt-5",
        [⟨"message", some Role.Assistant, [ResponseContent.outputText "Hi"]⟩],
        ⟨1, 1, 2⟩⟩)
      (some ⟨"An error message", "invalid_request_error", none, none⟩) =
      Except.ok ⟨1688413145,
        [⟨⟨Role.Assistant, "Hi"⟩, FinishReason.Stop⟩], "gpt-5", ⟨1, 1, 2⟩⟩ := by
  refine ⟨(c8_branch_on_status_ok 404 none
      ⟨"An error message", "invalid_request_error", none, none⟩
      ⟨1688413145, "gpt-5",
        [⟨"message", some Role.Assistant, [ResponseContent.outputText "Hi"]⟩],
        ⟨1, 1, 2⟩⟩).1 (by decide), ?_⟩
  have h := (c8_branch_on_status_ok 200
    (some ⟨1688413145, "gpt-5",
      [⟨"message", some Role.Assistant, [ResponseContent.outputText "Hi"]⟩],
      ⟨1, 1, 2⟩⟩)
    ⟨"An error message", "invalid_request_error", none, none⟩
    ⟨1688413145, "gpt-5",
      [⟨"message", some Role.Assistant, [ResponseContent.outputText "Hi"]⟩],
      ⟨1, 1, 2⟩⟩).2 rfl rfl
  rw [h]
  rfl

/-- Output formats (src/cli.rs, enum OutputFormat). -/
inductive OutputFormat where
  | Plaintext
  | JSON
  | JSONPretty
deriving DecidableEq

/-- Lowercase hex digit, as used by serde_json's escape table. -/
def hexDigit (n : Nat) : Char :=
  if n < 10 then Char.ofNat (48 + n) else Char.ofNat (87 + n)

/-- serde_json's escaping of one character inside a JSON string. -/
def escape_char (c : Char) : String :=
  if c = '"' then "\\\""
  else if c = '\\' then "\\\\"
  else if c = Char.ofNat 8 then "\\b"
  else if c = Char.ofNat 12 then "\\f"
  else if c = '\n' then "\\n"
  else if c = '\r' then "\\r"
  else if c = '\t' then "\\t"
  else if c.toNat < 32 then
    "\\u00" ++ String.singleton (hexDigit (c.toNat / 16)) ++
      String.singleton (hexDigit (c.toNat % 16))
  else String.singleton c

/-- serde_json rendering of a string literal. -/
def render_string (s : String) : String :=
  "\"" ++ String.join (s.data.map escape_char) ++ "\""

/-- Compact serialization, as serde_json::to_string produces it. -/
def Json.render : Json → String
  | Json.str s => render_string s
  | Json.num n => toString n
  | Json.arr elems =>
    "[" ++ String.intercalate "," (elems.attach.map fun e => Json.render e.1) ++ "]"
  | Json.obj fields =>
    "\x7b" ++ String.intercalate ","
      (fields.attach.map fun kv => render_string kv.1.1 ++ ":" ++ Json.render kv.1.2) ++
      "\x7d"
termination_by j => sizeOf j
decreasing_by
  · have h1 := List.sizeOf_lt_of_mem e.2
    simp_wf
    omega
  · have h1 := List.sizeOf_lt_of_mem kv.2
    have h2 : sizeOf kv.1 = 1 + sizeOf kv.1.1 + sizeOf kv.1.2 := by
      rcases kv.1 with ⟨k, v⟩
      simp
    simp_wf
    omega

/-- Spaces of one indentation position. -/
def pad (n : Nat) : String := String.mk (List.replicate n ' ')

/-- Indented serialization, as serde_json::to_string_pretty produces it
(two-space indentation). -/
def Json.pretty (indent : Nat) : Json → String
  | Json.str s => render_string s
  | Json.num n => toString n
  | Json.arr [] => "[]"
  | Json.arr elems =>
    "[\n" ++ String.intercalate ",\n"
      (elems.attach.map fun e => pad (indent + 2) ++ Json.pretty (indent + 2) e.1) ++
      "\n" ++ pad indent ++ "]"
  | Json.obj [] => "\x7b\x7d"
  | Json.obj fields =>
    "\x7b\n" ++ String.intercalate ",\n"
      (fields.attach.map fun kv =>
        pad (indent + 2) ++ render_string kv.1.1 ++ ": " ++
          Json.pretty (indent + 2) kv.1.2) ++
      "\n" ++ pad indent ++ "\x7d"
termination_by j => sizeOf j
decreasing_by
  · have h1 := List.sizeOf_lt_of_mem e.2
    simp_wf
    omega
  · have h1 := List.sizeOf_lt_of_mem kv.2
    have h2 : sizeOf kv.1 = 1 + sizeOf kv.1.1 + sizeOf kv.1.2 := by
      rcases kv.1 with ⟨k, v⟩
      simp
    simp_wf
    omega

/-- serde wire token of a finish reason (`rename_all = "snake_case"`). -/
def FinishReason.wire : FinishReason → String
  | FinishReason.Stop => "stop"
  | FinishReason.Length => "length"
  | FinishReason.FunctionCall => "function_call"
  | FinishReason.ContentFilter => "content_filter"

/-- serde serialization of a Message (derive Serialize, field order). -/
def Message.to_json (m : Message) : Json :=
  Json.obj [("role", Json.str m.role.as_str), ("content", Json.str m.content)]

/-- serde serialization of a Choice. -/
def Choice.to_json (c : Choice) : Json :=
  Json.obj [("message", c.message.to_json),
    ("finish_reason", Json.str c.finish_reason.wire)]

/-- serde serialization of Usage. -/
def Usage.to_json (u : Usage) : Json :=
  Json.obj [("input_tokens", Json.num u.input_tokens),
    ("output_tokens", Json.num u.output_tokens),
    ("total_tokens", Json.num u.total_tokens)]

/-- serde serialization of the full Response (`created` through
`ts_seconds` as the plain timestamp integer, then the fields in
declaration order). -/
def Response.to_json (r : Response) : Json :=
  Json.obj [("created", Json.num r.created),
    ("choices", Json.arr (r.choices.map Choice.to_json)),
    ("model", Json.str r.model),
    ("usage", r.usage.to_json)]

/-- Function `show_response` (src/exec/chat.rs): demand exactly one choice, demand
its finish reason be Stop, then write the formatted output followed by
the newline `writeln!` appends. The written bytes are returned as the
result string. -/
def show_response (output_format : OutputFormat) (resp : Response) :
    Except Error String :=
  match resp.choices with
  | [choice] =>
    match choice.finish_reason with
    | FinishReason.Stop =>
      let output :=
        match output_format with
        | OutputFormat.Plaintext => choice.message.content
        | OutputFormat.JSON => (Response.to_json resp).render
        | OutputFormat.JSONPretty => (Response.to_json resp).pretty 0
      Except.ok (output ++ "\n")
    | _ => Except.error
        (Error.UnexpectedResponse "Received unrecognized stop reason for choice")
  | _ => Except.error
      (Error.UnexpectedResponse "Unexpected number of choices in response")

/-- C9: for a Response with exactly one choice finishing with Stop,
Plaintext rendering writes exactly the choice's content plus one trailing
newline, and the JSON and JSONPretty renderings write the compact
respectively indented serialization of the full Response plus one
trailing newline. -/
theorem c9_show_response_formats (resp : Response) (choice : Choice)
    (hc : resp.choices = [choice])
    (hf : choice.finish_reason = FinishReason.Stop) :
    show_response OutputFormat.Plaintext resp =
        Except.ok (choice.message.content ++ "\n") ∧
    show_response OutputFormat.JSON resp =
        Except.ok ((Response.to_json resp).render ++ "\n") ∧
    show_response OutputFormat.JSONPretty resp =
        Except.ok ((Response.to_json resp).pretty 0 ++ "\n") := by
  refine ⟨?_, ?_, ?_⟩ <;> simp [show_response, hc, hf]

/-- Witness for C9 at a concrete single-choice Stop response. -/
theorem c9_show_response_formats_witness :
    show_response OutputFormat.Plaintext
        ⟨0, [⟨⟨Role.Assistant, "Hello world"⟩, FinishReason.Stop⟩], "m", ⟨0, 0, 0⟩⟩ =
      Except.ok ("Hello world" ++ "\n") ∧
    show_response OutputFormat.JSON
        ⟨0, [⟨⟨Role.Assistant, "Hello world"⟩, FinishReason.Stop⟩], "m", ⟨0, 0, 0⟩⟩ =
      Except.ok ((Response.to_json
        ⟨0, [⟨⟨Role.Assistant, "Hello world"⟩, FinishReason.Stop⟩], "m",
          ⟨0, 0, 0⟩⟩).render ++ "\n") ∧
    show_response OutputFormat.JSONPretty
        ⟨0, [⟨⟨Role.Assistant, "Hello world"⟩, FinishReason.Stop⟩], "m", ⟨0, 0, 0⟩⟩ =
      Except.ok ((Response.to_json
        ⟨0, [⟨⟨Role.Assistant, "Hello world"⟩, FinishReason.Stop⟩], "m",
          ⟨0, 0, 0⟩⟩).pretty 0 ++ "\n") :=
  c9_show_response_formats
    ⟨0, [⟨⟨Role.Assistant, "Hello world"⟩, FinishReason.Stop⟩], "m", ⟨0, 0, 0⟩⟩
    ⟨⟨Role.Assistant, "Hello world"⟩, FinishReason.Stop⟩ rfl rfl

end Cogni
